import Mathlib

/-!
# Table-engine registry and the RENAME interpreter

A shallow embedding of

* `StorageFactory::getAllRegisteredNames` (`dbms/src/Storages/StorageFactory.h`), and
* `InterpreterRenameQuery::execute` (`dbms/src/Interpreters/InterpreterRenameQuery.cpp`).

Strings stand for `std::string`; a character of a Lean string stands for one
byte of the C++ string, so that `String.length` is `std::string::size`.
Exceptions are modelled by returning the state reached together with the
exception thrown, because the effects made before a `throw` persist.
The mutex taken at the top of `execute` has no counterpart: the model is
sequential.
-/

namespace DB

/-! ## Engine registry -/

/-- The `Storages` member of `StorageFactory`: a `std::unordered_map` from engine
name to creator.  It is kept as the sequence of its entries in iteration order
(which the container leaves unspecified) together with the container's
guarantee that keys are unique.  `Creator` is the type of the mapped values. -/
structure Storages (Creator : Type) where
  entries : List (String × Creator)
  unique : (entries.map Prod.fst).Nodup

/-- The class `StorageFactory`; its only data member is `storages`. -/
structure StorageFactory (Creator : Type) where
  storages : Storages Creator

/-- Key lookup of the map (`storages.count(name) != 0`). -/
def Storages.contains {Creator : Type} (m : Storages Creator) (name : String) : Bool :=
  (m.entries.map Prod.fst).contains name

/-- Number of elements of the map (`storages.size()`). -/
def Storages.size {Creator : Type} (m : Storages Creator) : Nat :=
  m.entries.length

/-- The accessor `getAllStorages`. -/
def StorageFactory.getAllStorages {Creator : Type} (f : StorageFactory Creator) :
    Storages Creator :=
  f.storages

/-- The lambda `getter` of `getAllRegisteredNames`: `pair.first`. -/
def getter {Creator : Type} (pair : String × Creator) : String :=
  pair.1

/-- The method `getAllRegisteredNames`: `std::transform` of `getter` over
`storages.begin() .. storages.end()` with a `back_inserter` into the empty
vector `result`.  The first component is the registry after the call (the
method is `const` and only reads `storages`), the second is `result`. -/
def StorageFactory.getAllRegisteredNames {Creator : Type} (f : StorageFactory Creator) :
    StorageFactory Creator × List String :=
  (f, f.storages.entries.foldl (fun result pair => result ++ [getter pair]) [])

/-- The registry before any registration. -/
def StorageFactory.empty {Creator : Type} : StorageFactory Creator :=
  ⟨⟨[], List.nodup_nil⟩⟩

/-- Modelled from the spec: `StorageFactory::registerStorage`, which is only
declared in the header.  "`register(name, constructor)`: inserts
`name → constructor`.  Registering a name that already exists is a programming
error."  The new entry is put at place `slot` of the iteration order, since
the container does not fix where an inserted key is visited; `none` is the
logical error. -/
def StorageFactory.registerStorage {Creator : Type} (f : StorageFactory Creator)
    (slot : Nat) (name : String) (creator : Creator) : Option (StorageFactory Creator) :=
  if h : name ∈ f.storages.entries.map Prod.fst then none
  else some ⟨⟨f.storages.entries.take slot ++ (name, creator) :: f.storages.entries.drop slot, by
    have hp : (f.storages.entries.take slot ++ (name, creator) :: f.storages.entries.drop slot).Perm
        ((name, creator) :: f.storages.entries) := by
      have h1 := @List.perm_middle _ (name, creator) (f.storages.entries.take slot)
        (f.storages.entries.drop slot)
      rwa [List.take_append_drop] at h1
    exact ((hp.map Prod.fst).nodup_iff).mpr (List.nodup_cons.mpr ⟨h, f.storages.unique⟩)⟩⟩

/-! ## The RENAME interpreter: data -/

/-- What a `StoragePtr` designates: the identity of one live storage instance.
Two pointers are the same handle exactly when they are the same number. -/
abbrev StoragePtr := Nat

/-- The inner map of the catalog, `std::map<String, StoragePtr>`. -/
abbrev Tables := String → Option StoragePtr

/-- The catalog `*context.databases`, `std::map<String, Tables>`. -/
abbrev Databases := String → Option Tables

/-- One side of a rename element (`ASTRenameQuery::Table`). -/
structure Table where
  database : String
  table : String

/-- One element of `ASTRenameQuery::elements`. -/
structure Element where
  «from» : Table
  «to» : Table

/-- The statement `ParserCreateQuery` produces.  Only `table` is touched by
the interpreter; `other` stands for all remaining members. -/
structure ASTCreateQuery (α : Type) where
  table : String
  other : α

/-- The exceptions `execute` can leave with. -/
inductive Error where
  /-- Thrown by `Context::assertExists`. -/
  | UNKNOWN_TABLE (database table : String)
  /-- Thrown by `Context::assertDoesntExist`. -/
  | TABLE_ALREADY_EXISTS (database table : String)
  /-- Thrown by `execute` itself; the fields are the parts its message is
  assembled from: the file, `pos - create_query.data()`, the text shown and
  what was expected. -/
  | SYNTAX_ERROR (file : String) (position : Nat) (shown expected : String)
  /-- A file could not be opened, read, created or removed. -/
  | FILE_ERROR (path : String)
  /-- Whatever `IStorage::rename` throws. -/
  | STORAGE_ERROR (code : Nat)
  /-- Calling through a null `StoragePtr`; behind `assertExists` this cannot
  happen. -/
  | NULL_STORAGE
  deriving DecidableEq

/-- The message `execute` builds for its `SYNTAX_ERROR` exception. -/
def Error.message : Error → String
  | .SYNTAX_ERROR file position shown expected =>
      "Syntax error in file " ++ file ++ ": failed at position " ++ toString position ++ ": "
        ++ shown ++ ", expected " ++ expected ++ "."
  | _ => ""

/-- What `parser.parse(pos, end, ast, expected)` leaves behind: its boolean
result, the position `pos` was advanced to (as an offset from
`create_query.data()`), and either the statement or the expected-token text. -/
inductive ParseResult (α : Type) where
  | parsed (ast : ASTCreateQuery α) (pos : Nat)
  | failed (pos : Nat) (expected : String)

/-- One call `storage->rename(new_path_to_db, new_name)`. -/
structure RenameCall where
  storage : StoragePtr
  new_path_to_db : String
  new_name : String
  deriving DecidableEq

/-- The collaborators of `execute` whose code lives elsewhere. -/
structure Collaborators (α : Type) where
  /-- The function `escapeForFileName`. -/
  escapeForFileName : String → String
  /-- The virtual method `IStorage::rename`: given the calls made so far and
  the present call, the exception it throws, if any. -/
  storageRename : List RenameCall → RenameCall → Option Error
  /-- The method `ParserCreateQuery::parse`, on the whole buffer. -/
  parse : String → ParseResult α
  /-- The function `formatAST(ast, ostr, 0, false)`: the text written. -/
  formatAST : ASTCreateQuery α → String
  /-- The constant `SHOW_CHARS_ON_SYNTAX_ERROR`. -/
  SHOW_CHARS_ON_SYNTAX_ERROR : Nat
  /-- Whether `Poco::FileOutputStream ostr(path)` can create or truncate the
  file at `path`. -/
  canCreate : String → Bool

/-- The members of `Context` that `execute` uses. -/
structure Context where
  path : String
  current_database : String
  databases : Databases

/-- Everything `execute` can change: the context (its catalog), the files of
the metadata store, and the rename calls the storage instances have received,
oldest first. -/
structure State where
  context : Context
  files : String → Option String
  renames : List RenameCall

/-- The catalog entry under `(database, table)`, if any. -/
def lookup (databases : Databases) (database table : String) : Option StoragePtr :=
  (databases database).bind (fun tables => tables table)

/-- The reference `databases[database]`: `std::map::operator[]` yields the
mapped table map, a fresh empty one when the key is new. -/
def tablesOf (databases : Databases) (database : String) : Tables :=
  (databases database).getD (fun _ => none)

/-- Writing through the reference `databases[database]`. -/
def setTables (databases : Databases) (database : String) (tables : Tables) : Databases :=
  fun d => if d = database then some tables else databases d

/-- The call `databases[database].erase(databases[database].find(table))`. -/
def eraseTable (databases : Databases) (database table : String) : Databases :=
  setTables databases database
    (fun t => if t = table then none else tablesOf databases database t)

/-- The assignment `databases[database][table] = storage`. -/
def insertTable (databases : Databases) (database table : String) (storage : StoragePtr) :
    Databases :=
  setTables databases database
    (fun t => if t = table then some storage else tablesOf databases database t)

/-- Modelled from the spec: `Context::assertExists`, whose body is not in the
sources at hand.  "fail with "unknown table" if the source `(db, table)` is
absent from the catalog". -/
def assertExists (context : Context) (database_name table_name : String) : Option Error :=
  match lookup context.databases database_name table_name with
  | none => some (Error.UNKNOWN_TABLE database_name table_name)
  | some _ => none

/-- Modelled from the spec: `Context::assertDoesntExist`, whose body is not in
the sources at hand.  "fail with "table already exists" if the destination
`(db, table)` is already present". -/
def assertDoesntExist (context : Context) (database_name table_name : String) : Option Error :=
  match lookup context.databases database_name table_name with
  | none => none
  | some _ => some (Error.TABLE_ALREADY_EXISTS database_name table_name)

/-! ## The RENAME interpreter: one element -/

/-- Line 41: `it->from.database.empty() ? context.current_database : it->from.database`. -/
def from_database_name (context : Context) (it : Element) : String :=
  if it.«from».database = "" then context.current_database else it.«from».database

/-- Line 47: `it->to.database.empty() ? context.current_database : it->to.database`. -/
def to_database_name (context : Context) (it : Element) : String :=
  if it.«to».database = "" then context.current_database else it.«to».database

/-- Line 45: the path of the source metadata file. -/
def from_metadata_path {α : Type} (env : Collaborators α) (context : Context) (it : Element) :
    String :=
  context.path ++ "metadata/" ++ env.escapeForFileName (from_database_name context it) ++ "/"
    ++ (if it.«from».table ≠ "" then env.escapeForFileName it.«from».table ++ ".sql" else "")

/-- Line 51: the path of the destination metadata file. -/
def to_metadata_path {α : Type} (env : Collaborators α) (context : Context) (it : Element) :
    String :=
  context.path ++ "metadata/" ++ env.escapeForFileName (to_database_name context it) ++ "/"
    ++ (if it.«to».table ≠ "" then env.escapeForFileName it.«to».table ++ ".sql" else "")

/-- Line 57: the arguments of the `rename` call made on `storage`. -/
def renameCall {α : Type} (env : Collaborators α) (context : Context) (it : Element)
    (storage : StoragePtr) : RenameCall :=
  { storage := storage
    new_path_to_db :=
      context.path ++ "data/" ++ env.escapeForFileName (to_database_name context it) ++ "/"
    new_name := it.«to».table }

/-- Lines 68 to 81: parse `create_query`, which was read from `file`.  The
parsed query has to end at the end of the input or at a semicolon; otherwise
the exception of lines 77 to 81 is thrown.  `std::string(pos, std::min(
SHOW_CHARS_ON_SYNTAX_ERROR, end - pos))` is the text shown. -/
def parseCreateQuery {α : Type} (env : Collaborators α) (file create_query : String) :
    Except Error (ASTCreateQuery α) :=
  match env.parse create_query with
  | .failed pos expected =>
      .error (Error.SYNTAX_ERROR file pos
        (String.mk ((create_query.data.drop pos).take
          (min env.SHOW_CHARS_ON_SYNTAX_ERROR (create_query.length - pos))))
        expected)
  | .parsed ast pos =>
      if pos ≠ create_query.length ∧ create_query.data.get? pos ≠ some ';' then
        .error (Error.SYNTAX_ERROR file pos
          (String.mk ((create_query.data.drop pos).take
            (min env.SHOW_CHARS_ON_SYNTAX_ERROR (create_query.length - pos))))
          "end of query")
      else .ok ast

/-- Lines 85 to 87: open `path` for writing, truncating it, and write `text`. -/
def writeFile (files : String → Option String) (path text : String) : String → Option String :=
  fun p => if p = path then some text else files p

/-- Line 96: `Poco::File(path).remove()`, for a file that exists. -/
def removeFile (files : String → Option String) (path : String) : String → Option String :=
  fun p => if p = path then none else files p

/-- Lines 91 to 93: move the catalog entry of the source to the destination. -/
def renameInContext (context : Context) (it : Element) (table : StoragePtr) : Context :=
  { context with
    databases :=
      insertTable
        (eraseTable context.databases (from_database_name context it) it.«from».table)
        (to_database_name context it) it.«to».table table }

/-- The body of the loop of `execute` (lines 41 to 96) for the element `it`:
the state it leaves and the exception it throws, if any. -/
def renameElement {α : Type} (env : Collaborators α) (s : State) (it : Element) :
    State × Option Error :=
  match assertExists s.context (from_database_name s.context it) it.«from».table with
  | some e => (s, some e)
  | none =>
  match assertDoesntExist s.context (to_database_name s.context it) it.«to».table with
  | some e => (s, some e)
  | none =>
  match lookup s.context.databases (from_database_name s.context it) it.«from».table with
  | none => (s, some Error.NULL_STORAGE)
  | some table =>
  match env.storageRename s.renames (renameCall env s.context it table) with
  | some e => ({ s with renames := s.renames ++ [renameCall env s.context it table] }, some e)
  | none =>
  match s.files (from_metadata_path env s.context it) with
  | none =>
      ({ s with renames := s.renames ++ [renameCall env s.context it table] },
        some (Error.FILE_ERROR (from_metadata_path env s.context it)))
  | some create_query =>
  match parseCreateQuery env (from_metadata_path env s.context it) create_query with
  | .error e => ({ s with renames := s.renames ++ [renameCall env s.context it table] }, some e)
  | .ok ast =>
  if env.canCreate (to_metadata_path env s.context it) = false then
    ({ s with renames := s.renames ++ [renameCall env s.context it table] },
      some (Error.FILE_ERROR (to_metadata_path env s.context it)))
  else
  match writeFile s.files (to_metadata_path env s.context it)
      (env.formatAST { ast with table := it.«to».table } ++ "\n")
      (from_metadata_path env s.context it) with
  | none =>
      ({ context := renameInContext s.context it table
         files := writeFile s.files (to_metadata_path env s.context it)
           (env.formatAST { ast with table := it.«to».table } ++ "\n")
         renames := s.renames ++ [renameCall env s.context it table] },
        some (Error.FILE_ERROR (from_metadata_path env s.context it)))
  | some _ =>
      ({ context := renameInContext s.context it table
         files := removeFile
           (writeFile s.files (to_metadata_path env s.context it)
             (env.formatAST { ast with table := it.«to».table } ++ "\n"))
           (from_metadata_path env s.context it)
         renames := s.renames ++ [renameCall env s.context it table] },
        none)

/-- The method `InterpreterRenameQuery::execute` on the elements of the query,
in order; the first exception ends it. -/
def execute {α : Type} (env : Collaborators α) (s : State) : List Element → State × Option Error
  | [] => (s, none)
  | it :: rest =>
      match renameElement env s it with
      | (s', some e) => (s', some e)
      | (s', none) => execute env s' rest

/-- The metadata file of the catalog key `(database, table)`: the expression of
lines 45 and 51 for a resolved database name and a table name. -/
def metadataPathOf {α : Type} (env : Collaborators α) (context : Context)
    (database table : String) : String :=
  context.path ++ "metadata/" ++ env.escapeForFileName database ++ "/"
    ++ (if table ≠ "" then env.escapeForFileName table ++ ".sql" else "")

/-- The correspondence between catalog and metadata store: every catalog entry
has its metadata file, and every file is the metadata file of one catalog
entry and of no other. -/
def Corresponds {α : Type} (env : Collaborators α) (s : State) : Prop :=
  (∀ d t : String, (lookup s.context.databases d t).isSome →
      (s.files (metadataPathOf env s.context d t)).isSome)
  ∧ (∀ p : String, (s.files p).isSome →
      ∃ d t : String, (lookup s.context.databases d t).isSome
        ∧ p = metadataPathOf env s.context d t
        ∧ ∀ d' t' : String, p = metadataPathOf env s.context d' t' → d' = d ∧ t' = t)

/-- The request in which every omitted database is written out as `d`. -/
def withDatabase (d : String) (it : Element) : Element :=
  { «from» := { database := if it.«from».database = "" then d else it.«from».database
                table := it.«from».table }
    «to» := { database := if it.«to».database = "" then d else it.«to».database
              table := it.«to».table } }

/-! ## A concrete instance

One database `d1` holding `table1` (storage 7) and `table3` (storage 9), each
with its metadata file; the parser of the instance reads `ATTACH TABLE <name>`
and stops at the first newline or semicolon. -/

/-- The code of one character under `exampleEscape`. -/
def exampleEscapeChar (c : Char) : List Char :=
  if c = '/' then ['%', '2', 'F'] else if c = '%' then ['%', '2', '5'] else [c]

/-- An escaping for the instances: `/` becomes `%2F` and `%` becomes `%25`. -/
def exampleEscape (x : String) : String :=
  String.mk (x.data.flatMap exampleEscapeChar)

/-- The text of `exampleParse` up to the first newline or semicolon. -/
def exampleStatementText (text : String) : List Char :=
  text.data.takeWhile (fun c => c ≠ '\n' ∧ c ≠ ';')

/-- A parser for statements of the form `ATTACH TABLE <name>`; it consumes the
statement and one newline after it. -/
def exampleParse (text : String) : ParseResult Unit :=
  if "ATTACH TABLE ".data.isPrefixOf (exampleStatementText text) then
    .parsed ⟨String.mk ((exampleStatementText text).drop 13), ()⟩
      ((exampleStatementText text).length
        + (if text.data.get? (exampleStatementText text).length = some '\n' then 1 else 0))
  else .failed 0 "ATTACH"

/-- Collaborators for the instance: `exampleEscape` as escaping, storages that
accept every rename, and a file system that lets every file be created. -/
def exampleEnv : Collaborators Unit :=
  { escapeForFileName := exampleEscape
    storageRename := fun _ _ => none
    parse := exampleParse
    formatAST := fun ast => "ATTACH TABLE " ++ ast.table
    SHOW_CHARS_ON_SYNTAX_ERROR := 160
    canCreate := fun _ => true }

/-- The state of the instance. -/
def exampleState : State :=
  { context :=
      { path := "/"
        current_database := "d1"
        databases := fun d =>
          if d = "d1" then
            some (fun t => if t = "table1" then some 7 else if t = "table3" then some 9 else none)
          else none }
    files := fun p =>
      if p = "/metadata/d1/table1.sql" then some "ATTACH TABLE table1\n"
      else if p = "/metadata/d1/table3.sql" then some "ATTACH TABLE table3\n"
      else none
    renames := [] }

/-- The state `exampleState` with `text` as the content of the metadata file of
`d1.table1`. -/
def exampleStateWith (text : String) : State :=
  { exampleState with
    files := fun p => if p = "/metadata/d1/table1.sql" then some text else exampleState.files p }

/-- The element `table1 → otherDb.table2`, with no source database given. -/
def exampleElement : Element :=
  ⟨⟨"", "table1"⟩, ⟨"otherDb", "table2"⟩⟩

/-- Collaborators with a codec that reads back every metadata file it writes:
a statement is rendered as its table name, and the parser takes the whole text
but its last character for the name. -/
def plainEnv : Collaborators Unit :=
  { escapeForFileName := exampleEscape
    storageRename := fun _ _ => none
    parse := fun text => .parsed ⟨String.mk text.data.dropLast, ()⟩ text.length
    formatAST := fun ast => ast.table
    SHOW_CHARS_ON_SYNTAX_ERROR := 160
    canCreate := fun _ => true }

/-- The state of the instance for `plainEnv`: `d1.table1` is storage 7. -/
def plainState : State :=
  { context :=
      { path := "/"
        current_database := "d1"
        databases := fun d =>
          if d = "d1" then some (fun t => if t = "table1" then some 7 else none) else none }
    files := fun p => if p = "/metadata/d1/table1.sql" then some "table1\n" else none
    renames := [] }

/-! ## Lemmas on the catalog and on one element -/

/-- Reading through `databases[database]` is the catalog lookup. -/
theorem tablesOf_apply (databases : Databases) (database table : String) :
    tablesOf databases database table = lookup databases database table := by
  unfold tablesOf lookup
  cases databases database <;> rfl

/-- The catalog after one table map has been replaced. -/
theorem lookup_setTables (databases : Databases) (database : String) (tables : Tables)
    (d t : String) :
    lookup (setTables databases database tables) d t
      = if d = database then tables t else lookup databases d t := by
  unfold lookup setTables
  by_cases h : d = database <;> simp [h]

/-- Erasing removes one key and keeps every other. -/
theorem lookup_eraseTable (databases : Databases) (database table d t : String) :
    lookup (eraseTable databases database table) d t
      = if d = database ∧ t = table then none else lookup databases d t := by
  unfold eraseTable
  rw [lookup_setTables]
  by_cases h : d = database <;> by_cases h' : t = table <;> simp [h, h', tablesOf_apply]

/-- Assigning sets one key and keeps every other. -/
theorem lookup_insertTable (databases : Databases) (database table : String)
    (storage : StoragePtr) (d t : String) :
    lookup (insertTable databases database table storage) d t
      = if d = database ∧ t = table then some storage else lookup databases d t := by
  unfold insertTable
  rw [lookup_setTables]
  by_cases h : d = database <;> by_cases h' : t = table <;> simp [h, h', tablesOf_apply]

/-- The catalog after lines 91 to 93. -/
theorem lookup_renameInContext (context : Context) (it : Element) (table : StoragePtr)
    (d t : String) :
    lookup (renameInContext context it table).databases d t
      = if d = to_database_name context it ∧ t = it.«to».table then some table
        else if d = from_database_name context it ∧ t = it.«from».table then none
        else lookup context.databases d t := by
  unfold renameInContext
  simp only [lookup_insertTable, lookup_eraseTable]

/-- A validated element whose collaborators all succeed runs to the end of the
loop body; the state it leaves is given in full. -/
theorem renameElement_success {α : Type} (env : Collaborators α) (s : State) (it : Element)
    (table : StoragePtr) (create_query : String) (ast : ASTCreateQuery α)
    (hsrc : lookup s.context.databases (from_database_name s.context it) it.«from».table
      = some table)
    (hdst : lookup s.context.databases (to_database_name s.context it) it.«to».table = none)
    (hren : env.storageRename s.renames (renameCall env s.context it table) = none)
    (hread : s.files (from_metadata_path env s.context it) = some create_query)
    (hparse : parseCreateQuery env (from_metadata_path env s.context it) create_query = .ok ast)
    (hwrite : env.canCreate (to_metadata_path env s.context it) = true) :
    renameElement env s it =
      ({ context := renameInContext s.context it table
         files := removeFile
           (writeFile s.files (to_metadata_path env s.context it)
             (env.formatAST { ast with table := it.«to».table } ++ "\n"))
           (from_metadata_path env s.context it)
         renames := s.renames ++ [renameCall env s.context it table] }, none) := by
  have hfile : ∃ c, writeFile s.files (to_metadata_path env s.context it)
      (env.formatAST { ast with table := it.«to».table } ++ "\n")
      (from_metadata_path env s.context it) = some c := by
    unfold writeFile
    by_cases h : from_metadata_path env s.context it = to_metadata_path env s.context it
    · exact ⟨_, if_pos h⟩
    · exact ⟨create_query, by rw [if_neg h]; exact hread⟩
  obtain ⟨c, hc⟩ := hfile
  unfold renameElement
  simp only [assertExists, assertDoesntExist, hsrc, hdst, hren, hread, hparse, hwrite, hc]
  simp

/-- A request of one validated element whose collaborators all succeed. -/
theorem execute_singleton_success {α : Type} (env : Collaborators α) (s : State) (it : Element)
    (table : StoragePtr) (create_query : String) (ast : ASTCreateQuery α)
    (hsrc : lookup s.context.databases (from_database_name s.context it) it.«from».table
      = some table)
    (hdst : lookup s.context.databases (to_database_name s.context it) it.«to».table = none)
    (hren : env.storageRename s.renames (renameCall env s.context it table) = none)
    (hread : s.files (from_metadata_path env s.context it) = some create_query)
    (hparse : parseCreateQuery env (from_metadata_path env s.context it) create_query = .ok ast)
    (hwrite : env.canCreate (to_metadata_path env s.context it) = true) :
    execute env s [it] =
      ({ context := renameInContext s.context it table
         files := removeFile
           (writeFile s.files (to_metadata_path env s.context it)
             (env.formatAST { ast with table := it.«to».table } ++ "\n"))
           (from_metadata_path env s.context it)
         renames := s.renames ++ [renameCall env s.context it table] }, none) := by
  simp only [execute, renameElement_success env s it table create_query ast hsrc hdst hren
    hread hparse hwrite]

/-! ## Metadata paths -/

/-- Two texts that agree and are each cut at the first occurrence of `c` agree
on both sides of the cut. -/
theorem split_at_separator (c : Char) :
    ∀ (l₁ l₂ r₁ r₂ : List Char), c ∉ l₁ → c ∉ l₂ → l₁ ++ c :: r₁ = l₂ ++ c :: r₂ →
      l₁ = l₂ ∧ r₁ = r₂ := by
  intro l₁
  induction l₁ with
  | nil =>
    intro l₂ r₁ r₂ _ h₂ h
    cases l₂ with
    | nil => simpa using h
    | cons b l₂ =>
      simp only [List.nil_append, List.cons_append, List.cons.injEq] at h
      exact absurd (h.1 ▸ List.mem_cons_self _ _) h₂
  | cons a l₁ ih =>
    intro l₂ r₁ r₂ h₁ h₂ h
    cases l₂ with
    | nil =>
      simp only [List.nil_append, List.cons_append, List.cons.injEq] at h
      exact absurd (h.1 ▸ List.mem_cons_self _ _) h₁
    | cons b l₂ =>
      simp only [List.cons_append, List.cons.injEq] at h
      obtain ⟨hl, hr⟩ := ih l₂ r₁ r₂ (fun hm => h₁ (List.mem_cons_of_mem _ hm))
        (fun hm => h₂ (List.mem_cons_of_mem _ hm)) h.2
      exact ⟨by rw [h.1, hl], hr⟩

/-- The metadata paths of two catalog keys coincide only for equal keys, when
escaping is injective and never yields a path separator. -/
theorem metadataPathOf_injective {α : Type} (env : Collaborators α) (context : Context)
    (hinj : Function.Injective env.escapeForFileName)
    (hsep : ∀ x : String, '/' ∉ (env.escapeForFileName x).data)
    (d₁ t₁ d₂ t₂ : String)
    (h : metadataPathOf env context d₁ t₁ = metadataPathOf env context d₂ t₂) :
    d₁ = d₂ ∧ t₁ = t₂ := by
  unfold metadataPathOf at h
  have h' := congrArg String.data h
  simp only [String.data_append, List.append_assoc] at h'
  have h'' := List.append_cancel_left (List.append_cancel_left h')
  simp only [List.singleton_append] at h''
  obtain ⟨hd, ht⟩ := split_at_separator '/' _ _ _ _ (hsep d₁) (hsep d₂) h''
  refine ⟨hinj (String.ext hd), ?_⟩
  by_cases e₁ : t₁ = "" <;> by_cases e₂ : t₂ = ""
  · rw [e₁, e₂]
  · simp [e₁, e₂] at ht
  · simp [e₁, e₂] at ht
  · simp [e₁, e₂] at ht
    exact hinj (String.ext ht)

/-! ## The claims on single elements -/

/-- C1: a single-element rename whose source is in the catalog, whose
destination is not, and whose storage rename, metadata read, parse and file
write succeed, ends without exception; afterwards the source key is absent,
the destination key holds the very handle the source key held, and every
other key holds what it held before. -/
theorem execute_moves_catalog_entry {α : Type} (env : Collaborators α) (s : State)
    (it : Element) (table : StoragePtr) (create_query : String) (ast : ASTCreateQuery α)
    (hsrc : lookup s.context.databases (from_database_name s.context it) it.«from».table
      = some table)
    (hdst : lookup s.context.databases (to_database_name s.context it) it.«to».table = none)
    (hren : env.storageRename s.renames (renameCall env s.context it table) = none)
    (hread : s.files (from_metadata_path env s.context it) = some create_query)
    (hparse : parseCreateQuery env (from_metadata_path env s.context it) create_query = .ok ast)
    (hwrite : env.canCreate (to_metadata_path env s.context it) = true) :
    (execute env s [it]).2 = none
    ∧ lookup (execute env s [it]).1.context.databases
        (from_database_name s.context it) it.«from».table = none
    ∧ lookup (execute env s [it]).1.context.databases
        (to_database_name s.context it) it.«to».table = some table
    ∧ ∀ d t : String,
        (d, t) ≠ (from_database_name s.context it, it.«from».table) →
        (d, t) ≠ (to_database_name s.context it, it.«to».table) →
        lookup (execute env s [it]).1.context.databases d t = lookup s.context.databases d t := by
  have hne : ¬ (from_database_name s.context it = to_database_name s.context it
      ∧ it.«from».table = it.«to».table) := by
    rintro ⟨h1, h2⟩
    rw [h1, h2, hdst] at hsrc
    exact Option.noConfusion hsrc
  have hx := execute_singleton_success env s it table create_query ast hsrc hdst hren hread
    hparse hwrite
  rw [hx]
  refine ⟨rfl, ?_, ?_, ?_⟩
  · show lookup (renameInContext s.context it table).databases _ _ = _
    rw [lookup_renameInContext, if_neg hne, if_pos ⟨rfl, rfl⟩]
  · show lookup (renameInContext s.context it table).databases _ _ = _
    rw [lookup_renameInContext, if_pos ⟨rfl, rfl⟩]
  · intro d t hf ht
    show lookup (renameInContext s.context it table).databases _ _ = _
    rw [lookup_renameInContext, if_neg (fun h => ht (Prod.ext h.1 h.2)),
      if_neg (fun h => hf (Prod.ext h.1 h.2))]

/-- The theorem `execute_moves_catalog_entry` at the concrete instance: `table1`
of the current database `d1` becomes `otherDb.table2` and keeps storage 7. -/
theorem execute_moves_catalog_entry_witness :
    lookup exampleState.context.databases "d1" "table1" = some 7
    ∧ lookup exampleState.context.databases "otherDb" "table2" = none
    ∧ (execute exampleEnv exampleState [exampleElement]).2 = none
    ∧ lookup (execute exampleEnv exampleState [exampleElement]).1.context.databases
        "d1" "table1" = none
    ∧ lookup (execute exampleEnv exampleState [exampleElement]).1.context.databases
        "otherDb" "table2" = some 7
    ∧ lookup (execute exampleEnv exampleState [exampleElement]).1.context.databases
        "d1" "table3" = some 9 :=
  have h := execute_moves_catalog_entry exampleEnv exampleState exampleElement 7
    "ATTACH TABLE table1\n" ⟨"table1", ()⟩ (by decide) (by decide) rfl (by decide) rfl rfl
  ⟨by decide, by decide, h.1, h.2.1, h.2.2.1,
    (h.2.2.2 "d1" "table3" (by decide) (by decide)).trans (by decide)⟩

/-- C4: when the source of the first element is not in the catalog, `execute`
throws `UNKNOWN_TABLE` for it and the catalog, the files and the storages are
what they were. -/
theorem execute_unknown_source {α : Type} (env : Collaborators α) (s : State)
    (it : Element) (rest : List Element)
    (hsrc : lookup s.context.databases (from_database_name s.context it) it.«from».table = none) :
    execute env s (it :: rest)
      = (s, some (Error.UNKNOWN_TABLE (from_database_name s.context it) it.«from».table)) := by
  simp only [execute, renameElement, assertExists, hsrc]

/-- The theorem `execute_unknown_source` at the concrete instance: `d1.nosuch`
does not exist. -/
theorem execute_unknown_source_witness :
    lookup exampleState.context.databases "d1" "nosuch" = none
    ∧ execute exampleEnv exampleState [⟨⟨"d1", "nosuch"⟩, ⟨"d1", "table2"⟩⟩]
      = (exampleState, some (Error.UNKNOWN_TABLE "d1" "nosuch")) :=
  ⟨by decide, execute_unknown_source exampleEnv exampleState
    ⟨⟨"d1", "nosuch"⟩, ⟨"d1", "table2"⟩⟩ [] (by decide)⟩

/-- C3, as amended: when the source of the first element is in the catalog and
its destination is in the catalog too, `execute` throws `TABLE_ALREADY_EXISTS`
and the catalog, the files and the storages (no rename call is made) are what
they were. -/
theorem execute_destination_exists {α : Type} (env : Collaborators α) (s : State)
    (it : Element) (rest : List Element) (source occupant : StoragePtr)
    (hsrc : lookup s.context.databases (from_database_name s.context it) it.«from».table
      = some source)
    (hdst : lookup s.context.databases (to_database_name s.context it) it.«to».table
      = some occupant) :
    execute env s (it :: rest)
      = (s, some (Error.TABLE_ALREADY_EXISTS (to_database_name s.context it) it.«to».table)) := by
  simp only [execute, renameElement, assertExists, assertDoesntExist, hsrc, hdst]

/-- The theorem `execute_destination_exists` at the concrete instance:
`table1 → table3` within `d1`. -/
theorem execute_destination_exists_witness :
    lookup exampleState.context.databases "d1" "table1" = some 7
    ∧ lookup exampleState.context.databases "d1" "table3" = some 9
    ∧ execute exampleEnv exampleState [⟨⟨"d1", "table1"⟩, ⟨"", "table3"⟩⟩]
      = (exampleState, some (Error.TABLE_ALREADY_EXISTS "d1" "table3")) :=
  ⟨by decide, by decide, execute_destination_exists exampleEnv exampleState
    ⟨⟨"d1", "table1"⟩, ⟨"", "table3"⟩⟩ [] 7 9 (by decide) (by decide)⟩

/-- C3 as stated fails: the destination `d1.table3` is in the catalog, yet the
element `d1.nosuch → d1.table3` is refused with `UNKNOWN_TABLE`, because the
source is checked first. -/
theorem execute_destination_exists_counterexample :
    lookup exampleState.context.databases
        (to_database_name exampleState.context ⟨⟨"d1", "nosuch"⟩, ⟨"d1", "table3"⟩⟩) "table3"
      = some 9
    ∧ (execute exampleEnv exampleState [⟨⟨"d1", "nosuch"⟩, ⟨"d1", "table3"⟩⟩]).2
      = some (Error.UNKNOWN_TABLE "d1" "nosuch")
    ∧ (execute exampleEnv exampleState [⟨⟨"d1", "nosuch"⟩, ⟨"d1", "table3"⟩⟩]).2
      ≠ some (Error.TABLE_ALREADY_EXISTS "d1" "table3") := by
  decide

/-- The source and destination files of a validated element differ, when
escaping is injective and never yields a path separator. -/
theorem from_metadata_path_ne_to {α : Type} (env : Collaborators α) (s : State) (it : Element)
    (table : StoragePtr)
    (hinj : Function.Injective env.escapeForFileName)
    (hsep : ∀ x : String, '/' ∉ (env.escapeForFileName x).data)
    (hsrc : lookup s.context.databases (from_database_name s.context it) it.«from».table
      = some table)
    (hdst : lookup s.context.databases (to_database_name s.context it) it.«to».table = none) :
    from_metadata_path env s.context it ≠ to_metadata_path env s.context it := by
  intro h
  have h' : metadataPathOf env s.context (from_database_name s.context it) it.«from».table
      = metadataPathOf env s.context (to_database_name s.context it) it.«to».table := h
  obtain ⟨h1, h2⟩ := metadataPathOf_injective env s.context hinj hsep _ _ _ _ h'
  rw [h1, h2, hdst] at hsrc
  exact Option.noConfusion hsrc

/-- C2: after a successful single-element rename the source metadata file is
gone and the destination metadata file holds the rendering of the statement
parsed from the source file with its table set to the destination table,
followed by one newline; so a codec that reads back what it writes into a
metadata file finds the destination table name in the destination file.
Escaping is taken with its contract: injective, no path separator in its
output. -/
theorem execute_rewrites_metadata {α : Type} (env : Collaborators α) (s : State)
    (it : Element) (table : StoragePtr) (create_query : String) (ast : ASTCreateQuery α)
    (hinj : Function.Injective env.escapeForFileName)
    (hsep : ∀ x : String, '/' ∉ (env.escapeForFileName x).data)
    (hsrc : lookup s.context.databases (from_database_name s.context it) it.«from».table
      = some table)
    (hdst : lookup s.context.databases (to_database_name s.context it) it.«to».table = none)
    (hren : env.storageRename s.renames (renameCall env s.context it table) = none)
    (hread : s.files (from_metadata_path env s.context it) = some create_query)
    (hparse : parseCreateQuery env (from_metadata_path env s.context it) create_query = .ok ast)
    (hwrite : env.canCreate (to_metadata_path env s.context it) = true) :
    (execute env s [it]).2 = none
    ∧ (execute env s [it]).1.files (from_metadata_path env s.context it) = none
    ∧ (execute env s [it]).1.files (to_metadata_path env s.context it)
        = some (env.formatAST { ast with table := it.«to».table } ++ "\n")
    ∧ ((∀ a : ASTCreateQuery α, ∃ pos, env.parse (env.formatAST a ++ "\n") = .parsed a pos) →
        ∃ text a pos, (execute env s [it]).1.files (to_metadata_path env s.context it) = some text
          ∧ env.parse text = .parsed a pos ∧ a.table = it.«to».table) := by
  have hne := from_metadata_path_ne_to env s it table hinj hsep hsrc hdst
  rw [execute_singleton_success env s it table create_query ast hsrc hdst hren hread hparse hwrite]
  have hto : removeFile
      (writeFile s.files (to_metadata_path env s.context it)
        (env.formatAST { ast with table := it.«to».table } ++ "\n"))
      (from_metadata_path env s.context it) (to_metadata_path env s.context it)
      = some (env.formatAST { ast with table := it.«to».table } ++ "\n") := by
    unfold removeFile writeFile
    rw [if_neg (Ne.symm hne), if_pos rfl]
  refine ⟨rfl, ?_, hto, ?_⟩
  · show removeFile _ _ _ = none
    unfold removeFile
    rw [if_pos rfl]
  · intro hcodec
    obtain ⟨pos, hpos⟩ := hcodec { ast with table := it.«to».table }
    exact ⟨_, _, pos, hto, hpos, rfl⟩

/-- The codes of `exampleEscape` are uniquely decodable, one character at a time. -/
theorem exampleEscapeChar_split (c c' : Char) (r r' : List Char)
    (h : exampleEscapeChar c ++ r = exampleEscapeChar c' ++ r') : c = c' ∧ r = r' := by
  unfold exampleEscapeChar at h
  by_cases h1 : c = '/' <;> by_cases h2 : c = '%' <;> by_cases h3 : c' = '/' <;>
    by_cases h4 : c' = '%' <;> simp_all <;> exact absurd h.1.symm h4

/-- The escaping of the instances is injective. -/
theorem exampleEscape_injective : Function.Injective exampleEscape := by
  have key : ∀ x y : List Char, x.flatMap exampleEscapeChar = y.flatMap exampleEscapeChar → x = y := by
    intro x
    induction x with
    | nil =>
      intro y h
      cases y with
      | nil => rfl
      | cons c y =>
        exfalso
        simp only [List.flatMap_nil, List.flatMap_cons] at h
        unfold exampleEscapeChar at h
        by_cases h1 : c = '/' <;> by_cases h2 : c = '%' <;> simp_all
    | cons a x ih =>
      intro y h
      cases y with
      | nil =>
        exfalso
        simp only [List.flatMap_nil, List.flatMap_cons] at h
        unfold exampleEscapeChar at h
        by_cases h1 : a = '/' <;> by_cases h2 : a = '%' <;> simp_all
      | cons c y =>
        simp only [List.flatMap_cons] at h
        obtain ⟨hc, hr⟩ := exampleEscapeChar_split a c _ _ h
        rw [hc, ih y hr]
  intro x y h
  unfold exampleEscape at h
  exact String.ext (key _ _ (congrArg String.data h))

/-- The escaping of the instances never yields a path separator. -/
theorem exampleEscape_no_separator (x : String) : '/' ∉ (exampleEscape x).data := by
  unfold exampleEscape
  simp only [List.mem_flatMap, not_exists, not_and]
  intro c _ hc
  unfold exampleEscapeChar at hc
  by_cases h1 : c = '/'
  · simp [h1] at hc
  · by_cases h2 : c = '%'
    · simp [h2] at hc
    · simp only [h1, h2, if_false, List.mem_singleton] at hc
      exact h1 hc.symm

/-- The codec of `plainEnv` reads back every metadata file it writes. -/
theorem plainEnv_reads_back (a : ASTCreateQuery Unit) :
    ∃ pos, plainEnv.parse (plainEnv.formatAST a ++ "\n") = .parsed a pos := by
  refine ⟨(a.table ++ "\n").length, ?_⟩
  obtain ⟨t, u⟩ := a
  show ParseResult.parsed ⟨String.mk (t ++ "\n").data.dropLast, ()⟩ _ = _
  have h : (t ++ "\n").data.dropLast = t.data := by
    rw [String.data_append]
    exact List.dropLast_concat
  rw [h]
  rfl

/-- The theorem `execute_rewrites_metadata` at the instance `plainState`:
`table1 → otherDb.table2`. -/
theorem execute_rewrites_metadata_witness :
    (execute plainEnv plainState [exampleElement]).2 = none
    ∧ (execute plainEnv plainState [exampleElement]).1.files "/metadata/d1/table1.sql" = none
    ∧ (execute plainEnv plainState [exampleElement]).1.files "/metadata/otherDb/table2.sql"
        = some "table2\n"
    ∧ ∃ text a pos,
        (execute plainEnv plainState [exampleElement]).1.files "/metadata/otherDb/table2.sql"
          = some text
        ∧ plainEnv.parse text = .parsed a pos ∧ a.table = "table2" :=
  have h := execute_rewrites_metadata plainEnv plainState exampleElement 7 "table1\n"
    ⟨"table1", ()⟩ exampleEscape_injective exampleEscape_no_separator (by decide) (by decide) rfl
    (by decide) rfl rfl
  ⟨h.1, h.2.1, h.2.2.1, h.2.2.2 plainEnv_reads_back⟩

/-! ## Syntax errors -/

/-- Up to the parse check, a validated element has only called `rename` on its
storage; what the check answers decides how the element goes on. -/
theorem renameElement_parse_error {α : Type} (env : Collaborators α) (s : State) (it : Element)
    (table : StoragePtr) (create_query : String) (e : Error)
    (hsrc : lookup s.context.databases (from_database_name s.context it) it.«from».table
      = some table)
    (hdst : lookup s.context.databases (to_database_name s.context it) it.«to».table = none)
    (hren : env.storageRename s.renames (renameCall env s.context it table) = none)
    (hread : s.files (from_metadata_path env s.context it) = some create_query)
    (hparse : parseCreateQuery env (from_metadata_path env s.context it) create_query
      = .error e) :
    renameElement env s it
      = ({ s with renames := s.renames ++ [renameCall env s.context it table] }, some e) := by
  unfold renameElement
  simp only [assertExists, assertDoesntExist, hsrc, hdst, hren, hread, hparse]

/-- C7: when the parser succeeds on the source metadata file after `pos` bytes,
`pos` is before the end and the byte there is not a semicolon, `execute`
throws `SYNTAX_ERROR` with position `pos` and expectation "end of query"; when
the parser fails, the exception carries the parser's position and the parser's
expected-token text. -/
theorem execute_syntax_error {α : Type} (env : Collaborators α) (s : State) (it : Element)
    (rest : List Element) (table : StoragePtr) (create_query : String)
    (hsrc : lookup s.context.databases (from_database_name s.context it) it.«from».table
      = some table)
    (hdst : lookup s.context.databases (to_database_name s.context it) it.«to».table = none)
    (hren : env.storageRename s.renames (renameCall env s.context it table) = none)
    (hread : s.files (from_metadata_path env s.context it) = some create_query) :
    (∀ (ast : ASTCreateQuery α) (pos : Nat),
        env.parse create_query = .parsed ast pos →
        pos < create_query.length →
        create_query.data.get? pos ≠ some ';' →
        (execute env s (it :: rest)).2
          = some (Error.SYNTAX_ERROR (from_metadata_path env s.context it) pos
              (String.mk ((create_query.data.drop pos).take
                (min env.SHOW_CHARS_ON_SYNTAX_ERROR (create_query.length - pos))))
              "end of query"))
    ∧ (∀ (pos : Nat) (expected : String),
        env.parse create_query = .failed pos expected →
        (execute env s (it :: rest)).2
          = some (Error.SYNTAX_ERROR (from_metadata_path env s.context it) pos
              (String.mk ((create_query.data.drop pos).take
                (min env.SHOW_CHARS_ON_SYNTAX_ERROR (create_query.length - pos))))
              expected)) := by
  constructor
  · intro ast pos hp hlt hc
    have hparse : parseCreateQuery env (from_metadata_path env s.context it) create_query
        = .error (Error.SYNTAX_ERROR (from_metadata_path env s.context it) pos
            (String.mk ((create_query.data.drop pos).take
              (min env.SHOW_CHARS_ON_SYNTAX_ERROR (create_query.length - pos))))
            "end of query") := by
      unfold parseCreateQuery
      rw [hp]
      exact if_pos ⟨Nat.ne_of_lt hlt, hc⟩
    simp only [execute, renameElement_parse_error env s it table create_query _ hsrc hdst hren
      hread hparse]
  · intro pos expected hp
    have hparse : parseCreateQuery env (from_metadata_path env s.context it) create_query
        = .error (Error.SYNTAX_ERROR (from_metadata_path env s.context it) pos
            (String.mk ((create_query.data.drop pos).take
              (min env.SHOW_CHARS_ON_SYNTAX_ERROR (create_query.length - pos))))
            expected) := by
      unfold parseCreateQuery
      rw [hp]
    simp only [execute, renameElement_parse_error env s it table create_query _ hsrc hdst hren
      hread hparse]

/-- The theorem `execute_syntax_error` at two files for `d1.table1`: a statement
followed by `xyz` on a second line stops the parser at offset 20, and a file
that does not begin with `ATTACH TABLE ` makes the parser fail at offset 0. -/
theorem execute_syntax_error_witness :
    (execute exampleEnv (exampleStateWith "ATTACH TABLE table1\nxyz") [exampleElement]).2
      = some (Error.SYNTAX_ERROR "/metadata/d1/table1.sql" 20 "xyz" "end of query")
    ∧ (execute exampleEnv (exampleStateWith "CREATE TABLE table1\n") [exampleElement]).2
      = some (Error.SYNTAX_ERROR "/metadata/d1/table1.sql" 0 "CREATE TABLE table1\n" "ATTACH") :=
  ⟨(execute_syntax_error exampleEnv (exampleStateWith "ATTACH TABLE table1\nxyz") exampleElement
      [] 7 "ATTACH TABLE table1\nxyz" (by decide) (by decide) rfl (by decide)).1
      ⟨"table1", ()⟩ 20 rfl (by decide) (by decide),
    (execute_syntax_error exampleEnv (exampleStateWith "CREATE TABLE table1\n") exampleElement
      [] 7 "CREATE TABLE table1\n" (by decide) (by decide) rfl (by decide)).2
      0 "ATTACH" rfl⟩

/-- C10: when a validated element's storage rename succeeds and its source
metadata file fails the parse check, `execute` throws `SYNTAX_ERROR`; the
catalog and the files are what they were, and the storages have received one
more call: the source's storage was told to rename itself to the data
directory of the destination database and to the destination table name. -/
theorem execute_syntax_error_keeps_relocation {α : Type} (env : Collaborators α) (s : State)
    (it : Element) (rest : List Element) (table : StoragePtr) (create_query : String)
    (e : Error)
    (hsrc : lookup s.context.databases (from_database_name s.context it) it.«from».table
      = some table)
    (hdst : lookup s.context.databases (to_database_name s.context it) it.«to».table = none)
    (hren : env.storageRename s.renames (renameCall env s.context it table) = none)
    (hread : s.files (from_metadata_path env s.context it) = some create_query)
    (hparse : parseCreateQuery env (from_metadata_path env s.context it) create_query
      = .error e) :
    (execute env s (it :: rest)).2 = some e
    ∧ (∃ pos shown expected,
        e = Error.SYNTAX_ERROR (from_metadata_path env s.context it) pos shown expected)
    ∧ (execute env s (it :: rest)).1.context = s.context
    ∧ (execute env s (it :: rest)).1.files = s.files
    ∧ (execute env s (it :: rest)).1.renames
        = s.renames ++
          [{ storage := table
             new_path_to_db := s.context.path ++ "data/"
               ++ env.escapeForFileName (to_database_name s.context it) ++ "/"
             new_name := it.«to».table }] := by
  have hx : execute env s (it :: rest)
      = ({ s with renames := s.renames ++ [renameCall env s.context it table] }, some e) := by
    simp only [execute, renameElement_parse_error env s it table create_query e hsrc hdst hren
      hread hparse]
  rw [hx]
  refine ⟨rfl, ?_, rfl, rfl, rfl⟩
  unfold parseCreateQuery at hparse
  split at hparse
  · exact ⟨_, _, _, (Except.error.inj hparse).symm⟩
  · split at hparse
    · exact ⟨_, _, _, (Except.error.inj hparse).symm⟩
    · exact Except.noConfusion hparse

/-- The theorem `execute_syntax_error_keeps_relocation` at the concrete instance
with trailing text in the file of `d1.table1`. -/
theorem execute_syntax_error_keeps_relocation_witness :
    (execute exampleEnv (exampleStateWith "ATTACH TABLE table1\nxyz") [exampleElement]).2
      = some (Error.SYNTAX_ERROR "/metadata/d1/table1.sql" 20 "xyz" "end of query")
    ∧ lookup (execute exampleEnv (exampleStateWith "ATTACH TABLE table1\nxyz")
        [exampleElement]).1.context.databases "d1" "table1" = some 7
    ∧ (execute exampleEnv (exampleStateWith "ATTACH TABLE table1\nxyz") [exampleElement]).1.files
        "/metadata/otherDb/table2.sql" = none
    ∧ (execute exampleEnv (exampleStateWith "ATTACH TABLE table1\nxyz")
        [exampleElement]).1.renames = [⟨7, "/data/otherDb/", "table2"⟩] :=
  have h := execute_syntax_error_keeps_relocation exampleEnv
    (exampleStateWith "ATTACH TABLE table1\nxyz") exampleElement [] 7
    "ATTACH TABLE table1\nxyz"
    (Error.SYNTAX_ERROR "/metadata/d1/table1.sql" 20 "xyz" "end of query")
    (by decide) (by decide) rfl (by decide) rfl
  ⟨h.1, by rw [h.2.2.1]; decide, by rw [h.2.2.2.1]; decide, h.2.2.2.2⟩

/-! ## Requests of several elements -/

/-- A request of two elements runs the second element on the state the first
one leaves, unless the first one throws. -/
theorem execute_pair {α : Type} (env : Collaborators α) (s : State) (e₁ e₂ : Element) :
    execute env s [e₁, e₂]
      = if (execute env s [e₁]).2 = none then execute env (execute env s [e₁]).1 [e₂]
        else execute env s [e₁] := by
  simp only [execute]
  rcases renameElement env s e₁ with ⟨s', _ | e⟩ <;> simp

/-- An element whose source and destination are both in the catalog is refused
before anything is changed. -/
theorem renameElement_destination_exists {α : Type} (env : Collaborators α) (s : State)
    (it : Element) (source occupant : StoragePtr)
    (hsrc : lookup s.context.databases (from_database_name s.context it) it.«from».table
      = some source)
    (hdst : lookup s.context.databases (to_database_name s.context it) it.«to».table
      = some occupant) :
    renameElement env s it
      = (s, some (Error.TABLE_ALREADY_EXISTS (to_database_name s.context it) it.«to».table)) := by
  simp only [renameElement, assertExists, assertDoesntExist, hsrc, hdst]

/-- C5, as amended: in a request of two elements where the first succeeds and,
on the state the first leaves, the source of the second is in the catalog and
its destination is in the catalog too, `execute` throws
`TABLE_ALREADY_EXISTS` and leaves exactly the state that executing the first
element alone leaves. -/
theorem execute_second_destination_exists {α : Type} (env : Collaborators α) (s : State)
    (e₁ e₂ : Element) (source occupant : StoragePtr)
    (h₁ : (execute env s [e₁]).2 = none)
    (hsrc : lookup (execute env s [e₁]).1.context.databases
        (from_database_name (execute env s [e₁]).1.context e₂) e₂.«from».table = some source)
    (hdst : lookup (execute env s [e₁]).1.context.databases
        (to_database_name (execute env s [e₁]).1.context e₂) e₂.«to».table = some occupant) :
    execute env s [e₁, e₂]
      = ((execute env s [e₁]).1,
          some (Error.TABLE_ALREADY_EXISTS
            (to_database_name (execute env s [e₁]).1.context e₂) e₂.«to».table)) := by
  rw [execute_pair, if_pos h₁]
  generalize (execute env s [e₁]).1 = s₁ at hsrc hdst ⊢
  simp only [execute, renameElement_destination_exists env s₁ e₂ source occupant hsrc hdst]

/-- The theorem `execute_second_destination_exists` at the concrete instance:
`table1 → otherDb.table2` succeeds, then `table3 → otherDb.table2` is refused;
`table1` has moved and `table3` is where it was, with its file. -/
theorem execute_second_destination_exists_witness :
    (execute exampleEnv exampleState [exampleElement]).2 = none
    ∧ execute exampleEnv exampleState [exampleElement, ⟨⟨"d1", "table3"⟩, ⟨"otherDb", "table2"⟩⟩]
      = ((execute exampleEnv exampleState [exampleElement]).1,
          some (Error.TABLE_ALREADY_EXISTS "otherDb" "table2"))
    ∧ lookup (execute exampleEnv exampleState
        [exampleElement, ⟨⟨"d1", "table3"⟩, ⟨"otherDb", "table2"⟩⟩]).1.context.databases
        "otherDb" "table2" = some 7
    ∧ lookup (execute exampleEnv exampleState
        [exampleElement, ⟨⟨"d1", "table3"⟩, ⟨"otherDb", "table2"⟩⟩]).1.context.databases
        "d1" "table3" = some 9
    ∧ (execute exampleEnv exampleState
        [exampleElement, ⟨⟨"d1", "table3"⟩, ⟨"otherDb", "table2"⟩⟩]).1.files
        "/metadata/d1/table3.sql" = some "ATTACH TABLE table3\n" :=
  ⟨by decide,
    execute_second_destination_exists exampleEnv exampleState exampleElement
      ⟨⟨"d1", "table3"⟩, ⟨"otherDb", "table2"⟩⟩ 9 7 (by decide) (by decide) (by decide),
    by decide, by decide, by decide⟩

/-- C5 as stated fails: in the request `table1 → table2, table1 → table2` the
first element succeeds and the destination of the second is in the catalog
when the second is validated, yet the exception is `UNKNOWN_TABLE`, because the
source of the second element is gone and is checked first. -/
theorem execute_second_destination_exists_counterexample :
    (execute exampleEnv exampleState [⟨⟨"d1", "table1"⟩, ⟨"d1", "table2"⟩⟩]).2 = none
    ∧ lookup (execute exampleEnv exampleState
        [⟨⟨"d1", "table1"⟩, ⟨"d1", "table2"⟩⟩]).1.context.databases "d1" "table2" = some 7
    ∧ (execute exampleEnv exampleState
        [⟨⟨"d1", "table1"⟩, ⟨"d1", "table2"⟩⟩, ⟨⟨"d1", "table1"⟩, ⟨"d1", "table2"⟩⟩]).2
      = some (Error.UNKNOWN_TABLE "d1" "table1")
    ∧ (execute exampleEnv exampleState
        [⟨⟨"d1", "table1"⟩, ⟨"d1", "table2"⟩⟩, ⟨⟨"d1", "table1"⟩, ⟨"d1", "table2"⟩⟩]).2
      ≠ some (Error.TABLE_ALREADY_EXISTS "d1" "table2") := by
  decide

/-! ## The current database -/

/-- Writing out the current database does not change the resolved source
database. -/
theorem from_database_name_withDatabase (context : Context) (it : Element) :
    from_database_name context (withDatabase context.current_database it)
      = from_database_name context it := by
  unfold from_database_name withDatabase
  by_cases h : it.«from».database = ""
  · simp [h]
  · simp [h]

/-- Writing out the current database does not change the resolved destination
database. -/
theorem to_database_name_withDatabase (context : Context) (it : Element) :
    to_database_name context (withDatabase context.current_database it)
      = to_database_name context it := by
  unfold to_database_name withDatabase
  by_cases h : it.«to».database = ""
  · simp [h]
  · simp [h]

/-- Writing out the databases keeps the source table name. -/
theorem withDatabase_from_table (d : String) (it : Element) :
    (withDatabase d it).«from».table = it.«from».table := rfl

/-- Writing out the databases keeps the destination table name. -/
theorem withDatabase_to_table (d : String) (it : Element) :
    (withDatabase d it).«to».table = it.«to».table := rfl

/-- One element and the element with its databases written out go the same way. -/
theorem renameElement_withDatabase {α : Type} (env : Collaborators α) (s : State)
    (it : Element) :
    renameElement env s (withDatabase s.context.current_database it) = renameElement env s it := by
  unfold renameElement from_metadata_path to_metadata_path renameCall renameInContext
  simp only [from_database_name_withDatabase, to_database_name_withDatabase,
    withDatabase_from_table, withDatabase_to_table]

/-- No element changes the current database. -/
theorem renameElement_current_database {α : Type} (env : Collaborators α) (s : State)
    (it : Element) :
    (renameElement env s it).1.context.current_database = s.context.current_database := by
  unfold renameElement
  repeat' split
  all_goals rfl

/-- C8: `execute` on a request is `execute` on the request in which every empty
source or destination database is replaced by the current database: the same
exception or the same catalog, files and rename calls.  With current database
`d1`, the element `table1 → otherDb.table2` has the source `(d1, table1)`. -/
theorem execute_resolves_current_database {α : Type} (env : Collaborators α) (s : State)
    (request : List Element) :
    execute env s request
      = execute env s (request.map (withDatabase s.context.current_database))
    ∧ ∀ context : Context, context.current_database = "d1" →
        (from_database_name context ⟨⟨"", "table1"⟩, ⟨"otherDb", "table2"⟩⟩,
          (⟨⟨"", "table1"⟩, ⟨"otherDb", "table2"⟩⟩ : Element).«from».table) = ("d1", "table1") := by
  constructor
  · induction request generalizing s with
    | nil => rfl
    | cons it rest ih =>
      simp only [List.map_cons, execute, renameElement_withDatabase]
      have hcur := renameElement_current_database env s it
      rcases hr : renameElement env s it with ⟨s', _ | e⟩
      · rw [hr] at hcur
        simp only
        rw [ih s', hcur]
      · rfl
  · intro context h
    simp [from_database_name, h]

/-! ## Catalog and metadata files correspond -/

/-- For a table name that is not empty the metadata file is
`<path>metadata/<escape(database)>/<escape(table)>.sql`. -/
theorem metadataPathOf_of_ne_empty {α : Type} (env : Collaborators α) (context : Context)
    (database table : String) (h : table ≠ "") :
    metadataPathOf env context database table
      = context.path ++ "metadata/" ++ env.escapeForFileName database ++ "/"
          ++ (env.escapeForFileName table ++ ".sql") := by
  unfold metadataPathOf
  rw [if_pos h]

/-- An element that ends without exception has passed every step. -/
theorem renameElement_none {α : Type} (env : Collaborators α) (s : State) (it : Element)
    (h : (renameElement env s it).2 = none) :
    ∃ (table : StoragePtr) (create_query : String) (ast : ASTCreateQuery α),
      lookup s.context.databases (from_database_name s.context it) it.«from».table = some table
      ∧ lookup s.context.databases (to_database_name s.context it) it.«to».table = none
      ∧ env.storageRename s.renames (renameCall env s.context it table) = none
      ∧ s.files (from_metadata_path env s.context it) = some create_query
      ∧ parseCreateQuery env (from_metadata_path env s.context it) create_query = .ok ast
      ∧ env.canCreate (to_metadata_path env s.context it) = true := by
  cases hsrc : lookup s.context.databases (from_database_name s.context it) it.«from».table with
  | none => simp [renameElement, assertExists, hsrc] at h
  | some table =>
  cases hdst : lookup s.context.databases (to_database_name s.context it) it.«to».table with
  | some o => simp [renameElement, assertExists, assertDoesntExist, hsrc, hdst] at h
  | none =>
  cases hren : env.storageRename s.renames (renameCall env s.context it table) with
  | some e => simp [renameElement, assertExists, assertDoesntExist, hsrc, hdst, hren] at h
  | none =>
  cases hread : s.files (from_metadata_path env s.context it) with
  | none => simp [renameElement, assertExists, assertDoesntExist, hsrc, hdst, hren, hread] at h
  | some create_query =>
  cases hparse : parseCreateQuery env (from_metadata_path env s.context it) create_query with
  | error e =>
    simp [renameElement, assertExists, assertDoesntExist, hsrc, hdst, hren, hread, hparse] at h
  | ok ast =>
  cases hwrite : env.canCreate (to_metadata_path env s.context it) with
  | false =>
    simp [renameElement, assertExists, assertDoesntExist, hsrc, hdst, hren, hread, hparse,
      hwrite] at h
  | true => exact ⟨table, create_query, ast, rfl, rfl, hren, rfl, hparse, rfl⟩

/-- One successful element keeps the correspondence. -/
theorem renameElement_corresponds {α : Type} (env : Collaborators α) (s : State) (it : Element)
    (hinj : Function.Injective env.escapeForFileName)
    (hsep : ∀ x : String, '/' ∉ (env.escapeForFileName x).data)
    (hinv : Corresponds env s)
    (hok : (renameElement env s it).2 = none) :
    Corresponds env (renameElement env s it).1 := by
  obtain ⟨table, create_query, ast, hsrc, hdst, hren, hread, hparse, hwrite⟩ :=
    renameElement_none env s it hok
  have hP := metadataPathOf_injective env s.context hinj hsep
  have hne : ¬ (from_database_name s.context it = to_database_name s.context it
      ∧ it.«from».table = it.«to».table) := by
    rintro ⟨h1, h2⟩
    rw [h1, h2, hdst] at hsrc
    exact Option.noConfusion hsrc
  rw [renameElement_success env s it table create_query ast hsrc hdst hren hread hparse hwrite]
  have hfrom : from_metadata_path env s.context it
      = metadataPathOf env s.context (from_database_name s.context it) it.«from».table := rfl
  have hto : to_metadata_path env s.context it
      = metadataPathOf env s.context (to_database_name s.context it) it.«to».table := rfl
  have hpath : ∀ d t, metadataPathOf env (renameInContext s.context it table) d t
      = metadataPathOf env s.context d t := fun _ _ => rfl
  obtain ⟨hfile, hentry⟩ := hinv
  constructor
  · intro d t hpres
    simp only [lookup_renameInContext] at hpres
    simp only [hpath, removeFile, writeFile, hfrom, hto]
    by_cases h1 : d = to_database_name s.context it ∧ t = it.«to».table
    · obtain ⟨rfl, rfl⟩ := h1
      rw [if_neg (fun h => hne (hP _ _ _ _ h.symm)), if_pos rfl]
      rfl
    · rw [if_neg h1] at hpres
      by_cases h2 : d = from_database_name s.context it ∧ t = it.«from».table
      · rw [if_pos h2] at hpres
        exact absurd hpres (by simp)
      · rw [if_neg h2] at hpres
        rw [if_neg (fun h => h2 (hP _ _ _ _ h))]
        split
        · rfl
        · exact hfile d t hpres
  · intro p hp
    simp only [removeFile, writeFile, hfrom, hto] at hp
    by_cases h1 : p = metadataPathOf env s.context (from_database_name s.context it)
        it.«from».table
    · rw [if_pos h1] at hp
      exact absurd hp (by simp)
    · rw [if_neg h1] at hp
      by_cases h2 : p = metadataPathOf env s.context (to_database_name s.context it)
          it.«to».table
      · refine ⟨to_database_name s.context it, it.«to».table, ?_, h2, ?_⟩
        · show (lookup (renameInContext s.context it table).databases _ _).isSome = true
          rw [lookup_renameInContext, if_pos ⟨rfl, rfl⟩]
          rfl
        · intro d' t' h'
          exact hP _ _ _ _ (((hpath d' t').symm.trans h'.symm).trans h2)
      · rw [if_neg h2] at hp
        obtain ⟨d, t, hpres, hpd, huniq⟩ := hentry p hp
        refine ⟨d, t, ?_, hpd, ?_⟩
        · show (lookup (renameInContext s.context it table).databases _ _).isSome = true
          rw [lookup_renameInContext, if_neg (fun h => h2 (by rw [hpd, h.1, h.2])),
            if_neg (fun h => h1 (by rw [hpd, h.1, h.2]))]
          exact hpres
        · intro d' t' h'
          exact huniq d' t' h'

/-- C6: when escaping is injective and never yields a path separator, and
catalog entries and metadata files correspond one to one before `execute`, they
correspond one to one after every request that `execute` ends without
exception. -/
theorem execute_preserves_correspondence {α : Type} (env : Collaborators α) (s : State)
    (request : List Element)
    (hinj : Function.Injective env.escapeForFileName)
    (hsep : ∀ x : String, '/' ∉ (env.escapeForFileName x).data)
    (hinv : Corresponds env s)
    (hok : (execute env s request).2 = none) :
    Corresponds env (execute env s request).1 := by
  induction request generalizing s with
  | nil => exact hinv
  | cons it rest ih =>
    have hstep := renameElement_corresponds env s it hinj hsep hinv
    simp only [execute] at hok ⊢
    rcases hr : renameElement env s it with ⟨s', _ | e⟩
    · rw [hr] at hok hstep
      exact ih s' (hstep rfl) hok
    · rw [hr] at hok
      exact absurd hok (by simp)
/-- The concrete instance has one metadata file for each of its two tables. -/
theorem exampleState_corresponds : Corresponds exampleEnv exampleState := by
  have e1 : metadataPathOf exampleEnv exampleState.context "d1" "table1"
      = "/metadata/d1/table1.sql" := by decide
  have e3 : metadataPathOf exampleEnv exampleState.context "d1" "table3"
      = "/metadata/d1/table3.sql" := by decide
  have hP := metadataPathOf_injective exampleEnv exampleState.context exampleEscape_injective
    exampleEscape_no_separator
  constructor
  · intro d t h
    by_cases hd : d = "d1"
    · subst hd
      by_cases h1 : t = "table1"
      · subst h1
        rw [e1]
        decide
      · by_cases h3 : t = "table3"
        · subst h3
          rw [e3]
          decide
        · exfalso
          simp [lookup, exampleState, h1, h3] at h
    · exfalso
      simp [lookup, exampleState, hd] at h
  · intro p hp
    by_cases h1 : p = "/metadata/d1/table1.sql"
    · refine ⟨"d1", "table1", by decide, h1.trans e1.symm, ?_⟩
      intro d' t' h'
      exact hP _ _ _ _ (h'.symm.trans (h1.trans e1.symm))
    · by_cases h3 : p = "/metadata/d1/table3.sql"
      · refine ⟨"d1", "table3", by decide, h3.trans e3.symm, ?_⟩
        intro d' t' h'
        exact hP _ _ _ _ (h'.symm.trans (h3.trans e3.symm))
      · exfalso
        simp [exampleState, h1, h3] at hp

/-- The theorem `execute_preserves_correspondence` at the concrete instance, for
the request `table1 → otherDb.table2`. -/
theorem execute_preserves_correspondence_witness :
    Corresponds exampleEnv exampleState
    ∧ (execute exampleEnv exampleState [exampleElement]).2 = none
    ∧ Corresponds exampleEnv (execute exampleEnv exampleState [exampleElement]).1 :=
  ⟨exampleState_corresponds, by decide,
    execute_preserves_correspondence exampleEnv exampleState [exampleElement]
      exampleEscape_injective exampleEscape_no_separator exampleState_corresponds (by decide)⟩

/-! ## The engine registry -/

/-- The loop of `std::transform` appends the keys in iteration order. -/
theorem transform_getter {Creator : Type} (entries : List (String × Creator))
    (result : List String) :
    entries.foldl (fun result pair => result ++ [getter pair]) result
      = result ++ entries.map Prod.fst := by
  induction entries generalizing result with
  | nil => simp
  | cons pair entries ih =>
    rw [List.foldl_cons, ih]
    simp [getter]

/-- The names returned are the keys of the entries, in iteration order. -/
theorem getAllRegisteredNames_eq {Creator : Type} (f : StorageFactory Creator) :
    f.getAllRegisteredNames.2 = f.storages.entries.map Prod.fst := by
  unfold StorageFactory.getAllRegisteredNames
  rw [transform_getter]
  rfl

/-- Registering a name that is not yet registered succeeds and adds that key
to the keys, somewhere in the iteration order. -/
theorem registerStorage_keys {Creator : Type} (f : StorageFactory Creator) (slot : Nat)
    (name : String) (creator : Creator) (h : name ∉ f.storages.entries.map Prod.fst) :
    ∃ f', f.registerStorage slot name creator = some f'
      ∧ (f'.storages.entries.map Prod.fst).Perm (name :: f.storages.entries.map Prod.fst) := by
  unfold StorageFactory.registerStorage
  rw [dif_neg h]
  refine ⟨_, rfl, ?_⟩
  have h1 := @List.perm_middle _ (name, creator) (f.storages.entries.take slot)
    (f.storages.entries.drop slot)
  rw [List.take_append_drop] at h1
  exact h1.map Prod.fst

/-- C9: `getAllRegisteredNames` returns exactly the keys of the map: every
registered name once, no other string, as many names as there are registered
engines; the registry is left as it was.  After `Memory` and `Log` have been
registered into the empty registry, wherever the container places them, the
names are `Memory` and `Log` and no other. -/
theorem getAllRegisteredNames_exact {Creator : Type} (f : StorageFactory Creator) :
    (∀ name : String, f.storages.contains name = true →
        f.getAllRegisteredNames.2.count name = 1)
    ∧ (∀ name : String, name ∈ f.getAllRegisteredNames.2 ↔ f.storages.contains name = true)
    ∧ f.getAllRegisteredNames.2.length = f.storages.size
    ∧ f.getAllRegisteredNames.1 = f
    ∧ (∀ (slot₁ slot₂ : Nat) (memory log : Creator),
        ∃ f₁ f₂ : StorageFactory Creator,
          StorageFactory.empty.registerStorage slot₁ "Memory" memory = some f₁
          ∧ f₁.registerStorage slot₂ "Log" log = some f₂
          ∧ (∀ name : String, name ∈ f₂.getAllRegisteredNames.2 ↔ name = "Memory" ∨ name = "Log")
          ∧ f₂.getAllRegisteredNames.2.length = 2) := by
  refine ⟨?_, ?_, ?_, rfl, ?_⟩
  · intro name h
    rw [getAllRegisteredNames_eq]
    have hm : name ∈ f.storages.entries.map Prod.fst := by
      simpa [Storages.contains] using h
    exact List.count_eq_one_of_mem f.storages.unique hm
  · intro name
    rw [getAllRegisteredNames_eq]
    simp [Storages.contains]
  · rw [getAllRegisteredNames_eq, List.length_map]
    rfl
  · intro slot₁ slot₂ memory log
    obtain ⟨f₁, h₁, p₁⟩ := registerStorage_keys (StorageFactory.empty : StorageFactory Creator)
      slot₁ "Memory" memory (by simp [StorageFactory.empty])
    have hlog : "Log" ∉ f₁.storages.entries.map Prod.fst := by
      intro hmem
      have := p₁.mem_iff.mp hmem
      simp [StorageFactory.empty] at this
    obtain ⟨f₂, h₂, p₂⟩ := registerStorage_keys f₁ slot₂ "Log" log hlog
    have p : (f₂.storages.entries.map Prod.fst).Perm ["Log", "Memory"] :=
      p₂.trans ((p₁.trans (by simp [StorageFactory.empty])).cons "Log")
    refine ⟨f₁, f₂, h₁, h₂, ?_, ?_⟩
    · intro name
      rw [getAllRegisteredNames_eq, p.mem_iff]
      simp [or_comm]
    · rw [getAllRegisteredNames_eq, p.length_eq]
      rfl

end DB
